import Mathlib

/-!
Verification of the ViperSSH core (src/config.py, src/viper.py) against its
natural-language specification.  The Python source is shallowly embedded:
pure functions become Lean functions, the mutable navigation state of the
TUI application becomes explicit state passing on a `NavState` record, and
the Python heap (list objects aliased between the `Config` object and its
callers) becomes an explicit cell store for the claims about copying.
-/

/-! ## Host data model

`viper.py` receives hosts as `HostInfo` records with a display name and a
connection target (imported from the config collaborator). -/

structure HostInfo where
  display_name : String
  target : String
deriving DecidableEq, Repr

/-! ## Column layout (src/viper.py, `ViperApp._refresh_host_list`)

The source splits `self.filtered_hosts` at `mid = (len(self.filtered_hosts) + 1) // 2`
into `filtered_hosts[:mid]` (left column) and `filtered_hosts[mid:]` (right column). -/

def splitHosts (hosts : List α) : List α × List α :=
  let mid := (hosts.length + 1) / 2
  (hosts.take mid, hosts.drop mid)

/-! ## Host filter (src/viper.py, `ViperApp.on_search_changed`)

The source lowercases the query (`query = event.value.lower()`); when the query is
non-empty it keeps the hosts `h` with `query in h.display_name.lower()`
(Python substring containment), otherwise it copies `current_hosts` unchanged. -/

def strLower (s : String) : String :=
  ⟨s.data.map Char.toLower⟩

def substrOf (q s : String) : Bool :=
  decide (q.data <:+: s.data)

def filterHosts (current_hosts : List HostInfo) (value : String) : List HostInfo :=
  let query := strLower value
  if query = "" then
    current_hosts
  else
    current_hosts.filter (fun h => substrOf query (strLower h.display_name))

/-! ## Target resolver (src/config.py, `Config.get_suffix` and `Config.build_target`)

`get_suffix` is `self._suffixes.get(environment, "")`; the dict is embedded as an
association list.  `build_target` returns the hostname unchanged when it contains
a dot or an at sign and otherwise appends the environment suffix. -/

def lookupStr (key : String) : List (String × β) → Option β
  | [] => none
  | (k, v) :: rest => if k = key then some v else lookupStr key rest

def get_suffix (suffixes : List (String × String)) (environment : String) : String :=
  (lookupStr environment suffixes).getD ""

/-- Python's `c in s` membership test for a single character. -/
def strContains (s : String) (c : Char) : Bool :=
  s.data.contains c

def build_target (suffixes : List (String × String)) (environment hostname : String) : String :=
  if strContains hostname '.' || strContains hostname '@' then
    hostname
  else
    hostname ++ get_suffix suffixes environment

/-! ## Basic facts about the layout and the filter -/

theorem splitHosts_mid_le (n : Nat) : (n + 1) / 2 ≤ n := by
  omega

theorem substrOf_of_empty (q s : String) (h : q = "") : substrOf q s = true := by
  subst h
  simp only [substrOf, decide_eq_true_eq]
  exact ⟨[], s.data, by simp⟩

/-- C1: for every host sequence `H` of length `n`, the column layout
`splitHosts H` is `(H.take mid, H.drop mid)` with `mid = (n+1)/2` (integer
division, which is `ceil(n/2)`); the left column has length `(n+1)/2`, the
right column has the remaining `n - (n+1)/2` items, both are contiguous
order-preserving pieces of `H` (a prefix and a suffix), their concatenation
reconstructs `H` exactly, and the empty input yields two empty sequences. -/
theorem C1_column_layout (α : Type) (H : List α) :
    splitHosts H = (H.take ((H.length + 1) / 2), H.drop ((H.length + 1) / 2)) ∧
    (splitHosts H).1.length = (H.length + 1) / 2 ∧
    (splitHosts H).2.length = H.length - (H.length + 1) / 2 ∧
    (splitHosts H).1 <+: H ∧
    (splitHosts H).2 <:+ H ∧
    (splitHosts H).1 ++ (splitHosts H).2 = H ∧
    splitHosts ([] : List α) = ([], []) := by
  refine ⟨rfl, ?_, ?_, ?_, ?_, ?_, by simp [splitHosts]⟩
  · simp [splitHosts]
    omega
  · simp [splitHosts]
  · exact List.take_prefix _ _
  · exact List.drop_suffix _ _
  · exact List.take_append_drop _ _

/-- C2: the host filter returns exactly the hosts of `H` whose display name
contains the query as a case-insensitive substring (both sides lowercased,
substring = list infix), it is an order-preserving subsequence of `H`
(a `List.filter`, hence a sublist — no re-sorting or ranking), and the empty
query returns `H` unchanged.  The operation is a pure Lean function, hence
deterministic and side-effect free. -/
theorem C2_host_filter (H : List HostInfo) (q : String) :
    filterHosts H q =
      H.filter (fun h => substrOf (strLower q) (strLower h.display_name)) ∧
    (filterHosts H q).Sublist H ∧
    filterHosts H "" = H := by
  refine ⟨?_, ?_, by simp [filterHosts, strLower]⟩
  · by_cases h : strLower q = ""
    · simp only [filterHosts, h, if_true, eq_self_iff_true]
      have hall : ∀ x ∈ H, substrOf "" (strLower x.display_name) = true := by
        intro x _
        exact substrOf_of_empty _ _ rfl
      exact (List.filter_eq_self.mpr hall).symm
    · simp only [filterHosts, if_neg h]
  · by_cases h : strLower q = ""
    · simp only [filterHosts, h, if_true, eq_self_iff_true]
      exact List.Sublist.refl H
    · simp only [filterHosts, if_neg h]
      exact List.filter_sublist H

/-- C3: the target resolver returns the hostname unchanged when it contains a
dot or an at sign, and otherwise returns the hostname concatenated with the
environment's suffix; the suffix lookup is total, an absent suffix behaving as
the empty string.  Both functions are pure Lean functions. -/
theorem C3_target_resolver (suffixes : List (String × String)) (environment hostname : String) :
    (strContains hostname '.' = true ∨ strContains hostname '@' = true →
      build_target suffixes environment hostname = hostname) ∧
    (strContains hostname '.' = false → strContains hostname '@' = false →
      build_target suffixes environment hostname = hostname ++ get_suffix suffixes environment) ∧
    (lookupStr environment suffixes = none → get_suffix suffixes environment = "") := by
  refine ⟨?_, ?_, ?_⟩
  · intro h
    rcases h with h | h <;> simp [build_target, h]
  · intro h1 h2
    simp [build_target, h1, h2]
  · intro h
    simp [get_suffix, h]

/-- Witness for C3 at the spec's own examples: a user-qualified and an
already-qualified target pass through unchanged, a bare hostname gets the
suffix appended, and an environment with no configured suffix contributes
the empty string. -/
theorem C3_target_resolver_witness :
    build_target [("prod", ".prod.example.com")] "prod" "user@1.2.3.4" = "user@1.2.3.4" ∧
    build_target [("prod", ".prod.example.com")] "prod" "host.fqdn.com" = "host.fqdn.com" ∧
    build_target [("prod", ".prod.example.com")] "prod" "db1" = "db1.prod.example.com" ∧
    get_suffix [("prod", ".prod.example.com")] "dev" = "" := by
  refine ⟨?_, ?_, ?_, ?_⟩
  · exact (C3_target_resolver _ _ _).1 (Or.inr (by decide))
  · exact (C3_target_resolver _ _ _).1 (Or.inl (by decide))
  · have h := (C3_target_resolver [("prod", ".prod.example.com")] "prod" "db1").2.1
      (by decide) (by decide)
    rw [h]
    decide
  · exact (C3_target_resolver [("prod", ".prod.example.com")] "dev" "db1").2.2 (by decide)

/-! ## History log

`src/viper.py` records connections via `History().add(target, proto=proto)` and the
history screen reads `History().load()`.  The `History` class itself is imported
from the config collaborator (`from config import Config, History, HostInfo`) but is
not present under src/, so its behaviour is modelled from the specification. -/

structure HistoryEntry where
  target : String
  proto : String
  ts : Nat
deriving DecidableEq, Repr

/-- Modelled from the spec: the `History` class imported by src/viper.py is not in
src/.  Spec §3 (HistoryEntry): entries are ordered newest-first; adding a duplicate
of a (target, protocol) pair removes the prior occurrence before re-inserting at
the front; the log is bounded to the N = 10 most recent entries and entries beyond
the bound are silently discarded on write. -/
def historyAdd (log : List HistoryEntry) (target proto : String) (ts : Nat) :
    List HistoryEntry :=
  (⟨target, proto, ts⟩ :: log.filter (fun e => !(e.target == target && e.proto == proto))).take 10

/-- At most one entry per (target, protocol) pair. -/
def KeyUnique (log : List HistoryEntry) : Prop :=
  log.Pairwise (fun a b => ¬(a.target = b.target ∧ a.proto = b.proto))

/-- C4: adding to the history removes any prior occurrence of the same
(target, protocol) pair and re-inserts it at the front, so key-uniqueness is
preserved and the new entry is the head (newest first); the result is bounded
to 10 entries.  Concretely, adding targets "a", "b", "a" yields the order
["a", "b"], and after 11 additions of distinct targets the length stays 10
and the oldest target is evicted. -/
theorem C4_history_log (log : List HistoryEntry) (target proto : String) (ts : Nat)
    (h : KeyUnique log) :
    KeyUnique (historyAdd log target proto ts) ∧
    (historyAdd log target proto ts).length ≤ 10 ∧
    (historyAdd log target proto ts).head? = some ⟨target, proto, ts⟩ ∧
    ((historyAdd (historyAdd (historyAdd [] "a" "ssh" 0) "b" "ssh" 1) "a" "ssh" 2).map
        HistoryEntry.target = ["a", "b"]) ∧
    (let eleven := ["t0", "t1", "t2", "t3", "t4", "t5", "t6", "t7", "t8", "t9", "t10"].foldl
        (fun l t => historyAdd l t "ssh" 0) []
     eleven.length = 10 ∧ "t0" ∉ eleven.map HistoryEntry.target) := by
  refine ⟨?_, ?_, ?_, by decide, by decide⟩
  · have hfilter : KeyUnique (log.filter (fun e => !(e.target == target && e.proto == proto))) :=
      List.Pairwise.sublist (List.filter_sublist log) h
    have hcons : KeyUnique
        (⟨target, proto, ts⟩ ::
          log.filter (fun e => !(e.target == target && e.proto == proto))) := by
      refine List.pairwise_cons.mpr ⟨?_, hfilter⟩
      intro b hb
      have hpred := (List.mem_filter.mp hb).2
      rintro ⟨h1, h2⟩
      simp [← h1, ← h2] at hpred
    exact List.Pairwise.sublist (List.take_sublist 10 _) hcons
  · simp only [historyAdd, List.length_take]
    exact Nat.min_le_left _ _
  · simp only [historyAdd]
    rw [show (10 : Nat) = 9 + 1 from rfl, List.take_succ_cons]
    rfl

/-- Witness for C4 at the empty log. -/
theorem C4_history_log_witness :
    KeyUnique [] ∧
    (KeyUnique (historyAdd [] "a" "ssh" 0) ∧
     (historyAdd [] "a" "ssh" 0).length ≤ 10 ∧
     (historyAdd [] "a" "ssh" 0).head? = some ⟨"a", "ssh", 0⟩ ∧
     ((historyAdd (historyAdd (historyAdd [] "a" "ssh" 0) "b" "ssh" 1) "a" "ssh" 2).map
         HistoryEntry.target = ["a", "b"]) ∧
     (let eleven := ["t0", "t1", "t2", "t3", "t4", "t5", "t6", "t7", "t8", "t9", "t10"].foldl
         (fun l t => historyAdd l t "ssh" 0) []
      eleven.length = 10 ∧ "t0" ∉ eleven.map HistoryEntry.target)) :=
  ⟨List.Pairwise.nil, C4_history_log [] "a" "ssh" 0 List.Pairwise.nil⟩

/-! ## Navigation state (src/viper.py, `ViperApp`)

The mutable widget state of the application is embedded as an explicit record:
`focus` abstracts which widget has keyboard focus, `env_index` the environment
list cursor (`ListView.index`, `none` when no row is highlighted), `search_value`
the content of the search `Input`, `left_index`/`right_index` the cursors of the
two host columns, and `left_column`/`right_column` the rows currently shown in
them.  Each method of `ViperApp` that the claims mention becomes a function
`NavState → NavState`, following the source statement by statement. -/

inductive Focus
  | EnvironmentList
  | SearchBox
  | HostColumnLeft
  | HostColumnRight
deriving DecidableEq, Repr

structure NavState where
  focus : Focus
  selected_env : Option String
  saved_env_index : Nat
  env_index : Option Nat
  search_value : String
  current_hosts : List HostInfo
  filtered_hosts : List HostInfo
  left_column : List HostInfo
  right_column : List HostInfo
  left_index : Option Nat
  right_index : Option Nat
deriving DecidableEq, Repr

/-- The config collaborator as seen from `ViperApp`: the ordered environment
list and the per-environment host lists (`self.config.environments`,
`self.config.get_hosts`). -/
structure AppConfig where
  environments : List String
  hosts : String → List HostInfo

/-- `ViperApp._refresh_host_list`: re-fills the two column views from
`self.filtered_hosts`, split at `mid = (len + 1) // 2`. -/
def refresh_host_list (s : NavState) : NavState :=
  { s with
    left_column := (splitHosts s.filtered_hosts).1
    right_column := (splitHosts s.filtered_hosts).2 }

/-- `ViperApp._clear_host_highlights`: sets both host-column cursors to `None`. -/
def clear_host_highlights (s : NavState) : NavState :=
  { s with left_index := none, right_index := none }

/-- `ViperApp._return_to_env_list`: clears host highlights, clears
`selected_env` and the search box, restores the full host set, refreshes the
columns, restores the environment cursor to the position saved when search was
entered, and focuses the environment list. -/
def return_to_env_list (s : NavState) : NavState :=
  let s1 := clear_host_highlights s
  let restore_index := s1.saved_env_index
  let s2 := { s1 with
    selected_env := none
    search_value := ""
    filtered_hosts := s1.current_hosts }
  let s3 := refresh_host_list s2
  { s3 with env_index := some restore_index, focus := Focus.EnvironmentList }

/-- `ViperApp.on_key` on the escape key while the search box has focus:
clears the search value, restores the unfiltered host set, refreshes the
columns, then runs `_return_to_env_list`. -/
def on_key_escape_search (s : NavState) : NavState :=
  return_to_env_list (refresh_host_list
    { s with search_value := "", filtered_hosts := s.current_hosts })

/-- `ViperApp.action_focus_search`: saves the environment cursor (only when it
is not `None`) and focuses the search box. -/
def action_focus_search (s : NavState) : NavState :=
  { s with
    saved_env_index :=
      match s.env_index with
      | some i => i
      | none => s.saved_env_index
    focus := Focus.SearchBox }

/-- `ViperApp._populate_hosts`: records the selected environment, loads its
hosts as both the full and the filtered set, clears the search box, and
refreshes the columns. -/
def populate_hosts (cfg : AppConfig) (environment : String) (s : NavState) : NavState :=
  refresh_host_list
    { s with
      selected_env := some environment
      current_hosts := cfg.hosts environment
      filtered_hosts := cfg.hosts environment
      search_value := "" }

/-- `ViperApp._focus_host_list`: clears highlights, focuses the left column,
and when the left column is non-empty (`mid > 0`) puts the cursor at
`min(row, mid - 1)`. -/
def focus_host_list (row : Nat) (s : NavState) : NavState :=
  let s1 := { (clear_host_highlights s) with focus := Focus.HostColumnLeft }
  let mid := (s1.filtered_hosts.length + 1) / 2
  if 0 < mid then
    { s1 with left_index := some (min row (mid - 1)) }
  else
    s1

/-- `ViperApp._focus_right_list`: a no-op when the right part of the split is
empty; otherwise clears highlights, focuses the right column, and puts the
cursor at `min(row, len(right_hosts) - 1)`. -/
def focus_right_list (row : Nat) (s : NavState) : NavState :=
  let mid := (s.filtered_hosts.length + 1) / 2
  let right_hosts := s.filtered_hosts.drop mid
  if right_hosts = [] then
    s
  else
    { (clear_host_highlights s) with
      focus := Focus.HostColumnRight
      right_index := some (min row (right_hosts.length - 1)) }

/-- `ViperApp._select_current_env`: a no-op when the environment cursor is
`None` or out of range; otherwise populates the hosts of the highlighted
environment and focuses the left host column at row 0. -/
def select_current_env (cfg : AppConfig) (s : NavState) : NavState :=
  match s.env_index with
  | none => s
  | some i =>
    match cfg.environments[i]? with
    | none => s
    | some environment => focus_host_list 0 (populate_hosts cfg environment s)

/-- `ViperApp.action_go_right`: from the environment list commits the
highlighted environment; from the left host column moves to the right column
at the current row (0 when no row is highlighted). -/
def action_go_right (cfg : AppConfig) (s : NavState) : NavState :=
  if s.focus = Focus.EnvironmentList then
    select_current_env cfg s
  else if s.focus = Focus.HostColumnLeft then
    focus_right_list (s.left_index.getD 0) s
  else
    s

/-- C5: cancelling from the search box (escape while the search box has focus)
clears the filter query, restores the current environment's full host set as
the visible hosts, clears the selected environment, restores the environment
cursor saved when search was entered, and focuses the environment list.  In
particular, entering search (which saves the cursor) and cancelling without
typing returns to the environment list with the same highlighted index. -/
theorem C5_cancel_search (s : NavState) (i : Nat) (h : s.env_index = some i) :
    (∀ u : NavState,
      (on_key_escape_search u).search_value = "" ∧
      (on_key_escape_search u).filtered_hosts = u.current_hosts ∧
      (on_key_escape_search u).selected_env = none ∧
      (on_key_escape_search u).env_index = some u.saved_env_index ∧
      (on_key_escape_search u).focus = Focus.EnvironmentList) ∧
    (on_key_escape_search (action_focus_search s)).env_index = some i ∧
    (on_key_escape_search (action_focus_search s)).focus = Focus.EnvironmentList := by
  refine ⟨fun u => ⟨rfl, rfl, rfl, rfl, rfl⟩, ?_, rfl⟩
  simp [on_key_escape_search, return_to_env_list, refresh_host_list,
    clear_host_highlights, action_focus_search, h]

/-- An example state used by the witnesses: the user is browsing the
environment list with the cursor on row 2, no environment committed yet. -/
def navExample : NavState :=
  { focus := Focus.EnvironmentList
    selected_env := none
    saved_env_index := 0
    env_index := some 2
    search_value := ""
    current_hosts := [⟨"web1", "web1"⟩, ⟨"web2", "web2"⟩, ⟨"db1", "db1"⟩]
    filtered_hosts := [⟨"web1", "web1"⟩, ⟨"web2", "web2"⟩, ⟨"db1", "db1"⟩]
    left_column := [⟨"web1", "web1"⟩, ⟨"web2", "web2"⟩]
    right_column := [⟨"db1", "db1"⟩]
    left_index := none
    right_index := none }

/-- Witness for C5: cancelling a search entered from environment row 2
returns to the environment list on row 2. -/
theorem C5_cancel_search_witness :
    navExample.env_index = some 2 ∧
    ((∀ u : NavState,
      (on_key_escape_search u).search_value = "" ∧
      (on_key_escape_search u).filtered_hosts = u.current_hosts ∧
      (on_key_escape_search u).selected_env = none ∧
      (on_key_escape_search u).env_index = some u.saved_env_index ∧
      (on_key_escape_search u).focus = Focus.EnvironmentList) ∧
    (on_key_escape_search (action_focus_search navExample)).env_index = some 2 ∧
    (on_key_escape_search (action_focus_search navExample)).focus = Focus.EnvironmentList) :=
  ⟨rfl, C5_cancel_search navExample 2 rfl⟩

/-- Reduction of `focus_host_list` at row 0: it focuses the left column and
puts the cursor on row 0, or leaves it unset when there are no hosts. -/
theorem focus_host_list_zero (s : NavState) :
    focus_host_list 0 s =
      { s with
        focus := Focus.HostColumnLeft
        left_index := if s.filtered_hosts = [] then none else some 0
        right_index := none } := by
  unfold focus_host_list clear_host_highlights
  by_cases hemp : s.filtered_hosts = []
  · simp [hemp]
  · have hpos : 0 < s.filtered_hosts.length := List.length_pos.mpr hemp
    have hmid : 0 < (s.filtered_hosts.length + 1) / 2 := by omega
    simp [hemp, hmid, Nat.zero_min]

/-- C7: commit-selecting the environment highlighted at a valid index sets
`selected_env`, resets the filter query to empty, makes the visible hosts that
environment's full host list, recomputes the two columns by the midpoint
split, focuses the left host column with the cursor on row 0 (or no cursor
when the host list is empty), and leaves no cursor in the right column.
Since this holds for every prior state, an active filter is never carried
across environments. -/
theorem C7_commit_select_env (cfg : AppConfig) (s : NavState) (i : Nat) (environment : String)
    (h1 : s.env_index = some i) (h2 : cfg.environments[i]? = some environment) :
    (select_current_env cfg s).selected_env = some environment ∧
    (select_current_env cfg s).search_value = "" ∧
    (select_current_env cfg s).current_hosts = cfg.hosts environment ∧
    (select_current_env cfg s).filtered_hosts = cfg.hosts environment ∧
    (select_current_env cfg s).left_column = (splitHosts (cfg.hosts environment)).1 ∧
    (select_current_env cfg s).right_column = (splitHosts (cfg.hosts environment)).2 ∧
    (select_current_env cfg s).focus = Focus.HostColumnLeft ∧
    (select_current_env cfg s).left_index =
      (if cfg.hosts environment = [] then none else some 0) ∧
    (select_current_env cfg s).right_index = none := by
  have hsel : select_current_env cfg s =
      focus_host_list 0 (populate_hosts cfg environment s) := by
    simp [select_current_env, h1, h2]
  rw [hsel, focus_host_list_zero]
  simp [populate_hosts, refresh_host_list]

/-- The config used by the witnesses. -/
def cfgExample : AppConfig :=
  { environments := ["dev", "prod", "staging"]
    hosts := fun e =>
      if e = "staging" then
        [⟨"web1", "web1"⟩, ⟨"web2", "web2"⟩, ⟨"db1", "db1"⟩]
      else
        [] }

/-- Witness for C7: committing environment row 2 ("staging") of the example
config resets the filter, shows all three hosts split 2/1, and focuses the
left column on row 0. -/
theorem C7_commit_select_env_witness :
    navExample.env_index = some 2 ∧
    cfgExample.environments[2]? = some "staging" ∧
    ((select_current_env cfgExample navExample).selected_env = some "staging" ∧
     (select_current_env cfgExample navExample).search_value = "" ∧
     (select_current_env cfgExample navExample).current_hosts = cfgExample.hosts "staging" ∧
     (select_current_env cfgExample navExample).filtered_hosts = cfgExample.hosts "staging" ∧
     (select_current_env cfgExample navExample).left_column =
       (splitHosts (cfgExample.hosts "staging")).1 ∧
     (select_current_env cfgExample navExample).right_column =
       (splitHosts (cfgExample.hosts "staging")).2 ∧
     (select_current_env cfgExample navExample).focus = Focus.HostColumnLeft ∧
     (select_current_env cfgExample navExample).left_index =
       (if cfgExample.hosts "staging" = [] then none else some 0) ∧
     (select_current_env cfgExample navExample).right_index = none) :=
  ⟨rfl, rfl, C7_commit_select_env cfgExample navExample 2 "staging" rfl rfl⟩

/-- C8: moving right from the left host column goes through
`focus_right_list` at the current row; when the right part of the split is
empty this is a no-op, and otherwise focus moves to the right column with the
cursor clamped to `min(row, rightLen - 1)`, which is a valid index of the
right column. -/
theorem C8_move_right (cfg : AppConfig) (s : NavState) (row : Nat)
    (hfoc : s.focus = Focus.HostColumnLeft)
    (hcol : s.right_column = (splitHosts s.filtered_hosts).2) :
    action_go_right cfg s = focus_right_list (s.left_index.getD 0) s ∧
    ((splitHosts s.filtered_hosts).2 = [] → focus_right_list row s = s) ∧
    ((splitHosts s.filtered_hosts).2 ≠ [] →
      (focus_right_list row s).focus = Focus.HostColumnRight ∧
      (focus_right_list row s).right_index =
        some (min row ((splitHosts s.filtered_hosts).2.length - 1)) ∧
      ∀ k, (focus_right_list row s).right_index = some k →
        k < (focus_right_list row s).right_column.length) := by
  refine ⟨?_, ?_, ?_⟩
  · simp [action_go_right, hfoc]
  · intro hnil
    have hnil2 : s.filtered_hosts.drop ((s.filtered_hosts.length + 1) / 2) = [] := by
      simpa [splitHosts] using hnil
    simp [focus_right_list, hnil2]
  · intro hne
    have hne2 : ¬ s.filtered_hosts.drop ((s.filtered_hosts.length + 1) / 2) = [] := by
      simpa [splitHosts] using hne
    have hlen : 0 < (s.filtered_hosts.drop ((s.filtered_hosts.length + 1) / 2)).length :=
      List.length_pos.mpr hne2
    refine ⟨?_, ?_, ?_⟩
    · simp [focus_right_list, hne2, clear_host_highlights]
    · simp [focus_right_list, hne2, clear_host_highlights, splitHosts]
    · intro k hk
      have hcol2 : (focus_right_list row s).right_column =
          s.filtered_hosts.drop ((s.filtered_hosts.length + 1) / 2) := by
        have hsame : (focus_right_list row s).right_column = s.right_column := by
          simp [focus_right_list, hne2, clear_host_highlights]
        rw [hsame]
        simpa [splitHosts] using hcol
      have hidx : (focus_right_list row s).right_index =
          some (min row
            ((s.filtered_hosts.drop ((s.filtered_hosts.length + 1) / 2)).length - 1)) := by
        simp [focus_right_list, hne2, clear_host_highlights]
      rw [hidx] at hk
      rw [hcol2]
      injection hk with hk2
      omega

/-- Witness for C8: in a state with three visible hosts (columns 2/1) and the
left column focused on row 1, move-right focuses the right column with the
cursor clamped to row 0, a valid index. -/
theorem C8_move_right_witness :
    (focus_host_list 1 navExample).focus = Focus.HostColumnLeft ∧
    (focus_host_list 1 navExample).right_column =
      (splitHosts (focus_host_list 1 navExample).filtered_hosts).2 ∧
    (action_go_right cfgExample (focus_host_list 1 navExample) =
       focus_right_list ((focus_host_list 1 navExample).left_index.getD 0)
         (focus_host_list 1 navExample) ∧
     ((splitHosts (focus_host_list 1 navExample).filtered_hosts).2 = [] →
       focus_right_list 1 (focus_host_list 1 navExample) = focus_host_list 1 navExample) ∧
     ((splitHosts (focus_host_list 1 navExample).filtered_hosts).2 ≠ [] →
       (focus_right_list 1 (focus_host_list 1 navExample)).focus = Focus.HostColumnRight ∧
       (focus_right_list 1 (focus_host_list 1 navExample)).right_index =
         some (min 1 ((splitHosts (focus_host_list 1 navExample).filtered_hosts).2.length - 1)) ∧
       ∀ k, (focus_right_list 1 (focus_host_list 1 navExample)).right_index = some k →
         k < (focus_right_list 1 (focus_host_list 1 navExample)).right_column.length)) :=
  ⟨by decide, by decide,
    C8_move_right cfgExample (focus_host_list 1 navExample) 1 (by decide) (by decide)⟩

/-! ## Configuration loading and startup error handling
(src/config.py `Config.load`, src/viper.py `ViperApp.on_mount` and `main`)

The filesystem seen by `Config.load` is embedded as a record: the raw lines of
`suffixes.conf` when it exists, whether `suffixes.conf.example` exists, the
stems of the `*.hosts` files when the host_list directory exists, and the
names of any `*.hosts.example` files. -/

structure FS where
  suffixes_file : Option (List String)
  suffixes_example : Bool
  host_list_dir : Option (List String)
  host_examples : List String

/-- Python `str.strip()`: drop leading and trailing whitespace. -/
def stripStr (s : String) : String :=
  ⟨((s.data.dropWhile Char.isWhitespace).reverse.dropWhile Char.isWhitespace).reverse⟩

/-- Python `str.startswith("#")`. -/
def startsWithHash (s : String) : Bool :=
  match s.data with
  | [] => false
  | c :: _ => c == '#'

/-- `Config._read_config_lines`: keep the stripped lines that are non-empty
and do not start with a comment marker. -/
def read_config_lines (lines : List String) : List String :=
  (lines.map stripStr).filter (fun stripped => !(stripped == "") && !(startsWithHash stripped))

/-- Python `line.split("=", 1)` on the character list. -/
def splitEqOnce : List Char → List Char × List Char
  | [] => ([], [])
  | c :: rest =>
    if c = '=' then
      ([], rest)
    else
      let (a, b) := splitEqOnce rest
      (c :: a, b)

/-- Python dict assignment `d[k] = v` on an insertion-ordered association list. -/
def dictInsert : List (String × String) → String → String → List (String × String)
  | [], k, v => [(k, v)]
  | (k0, v0) :: rest, k, v =>
    if k0 = k then (k0, v) :: rest else (k0, v0) :: dictInsert rest k v

/-- `Config._raise_missing_file_error`: the message names the expected path and,
when the example file exists, tells the user to copy it. -/
def missing_file_error_msg (example_exists : Bool) : String :=
  if example_exists then
    "Configuration not found: suffixes.conf\nCopy the example file to get started:\n  cp suffixes.conf.example suffixes.conf"
  else
    "Configuration file not found: suffixes.conf"

/-- `Config._load_suffixes`: raises when `suffixes.conf` is missing, otherwise
parses `key=value` lines (first `=` splits, both sides stripped). -/
def load_suffixes (fs : FS) : Except String (List (String × String)) :=
  match fs.suffixes_file with
  | none => .error (missing_file_error_msg fs.suffixes_example)
  | some lines =>
    .ok ((read_config_lines lines).foldl
      (fun d line =>
        if strContains line '=' then
          let (key, value) := splitEqOnce line.data
          dictInsert d (stripStr ⟨key⟩) (stripStr ⟨value⟩)
        else d)
      [])

/-- Lexicographic insertion sort, embedding Python `sorted` on strings. -/
def sortInsert (x : String) : List String → List String
  | [] => [x]
  | y :: rest => if x < y then x :: y :: rest else y :: sortInsert x rest

def sortStrings (l : List String) : List String :=
  l.foldr sortInsert []

/-- `Config._discover_environments`: raises when the host_list directory is
missing, when it has no `.hosts` files (naming an example to copy when one
exists), and otherwise returns the sorted stems. -/
def discover_environments (fs : FS) : Except String (List String) :=
  match fs.host_list_dir with
  | none => .error "Host list directory not found: host_list"
  | some stems =>
    let environments := sortStrings stems
    if environments = [] then
      match fs.host_examples with
      | example0 :: _ =>
        .error ("No environment files found in host_list\nCopy an example file to get started:\n  cp " ++ example0)
      | [] => .error "No .hosts files found in host_list"
    else
      .ok environments

/-- `Config.load`: `_load_suffixes` then `_discover_environments`; the first
raised error propagates. -/
def Config.load (fs : FS) : Except String (List (String × String) × List String) :=
  match load_suffixes fs with
  | .error e => .error e
  | .ok suffixes =>
    match discover_environments fs with
    | .error e => .error e
    | .ok environments => .ok (suffixes, environments)

/-- Outcome of `ViperApp.on_mount`: on a load failure the error is shown as a
notification and the method returns early — the environment list is never
populated, and the app object keeps running (there is no exit call on this
path). -/
structure MountResult where
  notified : Option String
  populated : Bool
deriving DecidableEq, Repr

def on_mount (load_result : Except String (List (String × String) × List String)) :
    MountResult :=
  match load_result with
  | .error e => { notified := some e, populated := false }
  | .ok _ => { notified := none, populated := true }

/-- The value `ViperApp.run()` hands to `main`: `ViperApp._connect` is the only
exit call that passes a result; every quit/back exit passes none. -/
structure ConnectionRequest where
  target : String
  proto : String
deriving DecidableEq, Repr

/-- What `main` does after `app.run()`: with no result it simply returns, so
the Python process exits with status 0; with a result it prints and replaces
the process with the external ssh/sftp client (`os.execvp`), never setting an
exit status of its own. -/
inductive MainOutcome
  | exitCode : Nat → MainOutcome
  | handoff : String → String → MainOutcome
deriving DecidableEq, Repr

def main_outcome (result : Option ConnectionRequest) : MainOutcome :=
  match result with
  | none => .exitCode 0
  | some r => .handoff r.target r.proto

/-- A filesystem with `suffixes.conf` missing (its example present) — a
configuration load failure. -/
def fsMissingSuffixes : FS :=
  { suffixes_file := none
    suffixes_example := true
    host_list_dir := some ["prod"]
    host_examples := [] }

/-- Counterexample to C6: with `suffixes.conf` missing, `Config.load` fails
(with remediation text), yet the process exit code observed after the user
quits the notified app is 0 — not non-zero as the claim requires ("the process
exit code is non-zero exactly in this case"). -/
theorem C6_exit_code_counterexample :
    Config.load fsMissingSuffixes = .error (missing_file_error_msg true) ∧
    substrOf "Copy the example file" (missing_file_error_msg true) = true ∧
    (on_mount (Config.load fsMissingSuffixes)).populated = false ∧
    main_outcome none = MainOutcome.exitCode 0 ∧
    ¬ main_outcome none ≠ MainOutcome.exitCode 0 := by
  refine ⟨rfl, by decide, rfl, rfl, fun hne => hne rfl⟩

/-- C6 as amended: every configuration load failure is caught in `on_mount`
at startup — the error message (with its remediation text) is surfaced as a
notification and the navigation lists are never populated — but the app keeps
running, and the program's own exit status is 0 on every exit that returns a
result to `main` without a connection target; no code path sets a non-zero
exit status, a non-target exit being indistinguishable in status from a
normal exit. -/
theorem C6_config_failure_behavior (fs : FS) (e : String)
    (h : Config.load fs = .error e) :
    on_mount (Config.load fs) = { notified := some e, populated := false } ∧
    main_outcome none = MainOutcome.exitCode 0 ∧
    (∀ r : Option ConnectionRequest,
      main_outcome r = MainOutcome.exitCode 0 ∨
      ∃ t p, r = some ⟨t, p⟩ ∧ main_outcome r = MainOutcome.handoff t p) := by
  refine ⟨by rw [h]; rfl, rfl, ?_⟩
  intro r
  cases r with
  | none => exact Or.inl rfl
  | some cr => exact Or.inr ⟨cr.target, cr.proto, rfl, rfl⟩

/-- Witness for the amended C6 at the concrete failing filesystem. -/
theorem C6_config_failure_behavior_witness :
    Config.load fsMissingSuffixes = .error (missing_file_error_msg true) ∧
    (on_mount (Config.load fsMissingSuffixes) =
      { notified := some (missing_file_error_msg true), populated := false } ∧
     main_outcome none = MainOutcome.exitCode 0 ∧
     (∀ r : Option ConnectionRequest,
       main_outcome r = MainOutcome.exitCode 0 ∨
       ∃ t p, r = some ⟨t, p⟩ ∧ main_outcome r = MainOutcome.handoff t p)) :=
  ⟨rfl, C6_config_failure_behavior fsMissingSuffixes (missing_file_error_msg true) rfl⟩

/-! ## The catalog object and list copying
(src/config.py `Config.environments` and `Config.get_hosts`)

`Config.environments` returns `self._environments.copy()` and `Config.get_hosts`
returns `self._hosts_cache[environment].copy()` (or `hosts.copy()` after reading
and caching the file, or a fresh `[]` when the file is missing).  To reason about
what a caller-side mutation of a returned list can affect, Python list objects
are embedded as cells of an explicit store: `Heap.alloc` is list construction
(including `.copy()`), `Heap.write` is in-place mutation of a list object, and
the `Config` object holds references into the store. -/

abbrev Cell := List String

abbrev Heap := List Cell

def Heap.read : Heap → Nat → Cell
  | [], _ => []
  | c :: _, 0 => c
  | _ :: h, n + 1 => Heap.read h n

def Heap.write : Heap → Nat → Cell → Heap
  | [], _, _ => []
  | _ :: h, 0, v => v :: h
  | c :: h, n + 1, v => c :: Heap.write h n v

def Heap.alloc (h : Heap) (v : Cell) : Heap × Nat :=
  (h ++ [v], h.length)

/-- The `Config` object after `load()`: a reference to the `self._environments`
list object, the `self._hosts_cache` dict (environment name to cached list
object), and the read-only filesystem of `<environment>.hosts` files (already
parsed by `_read_config_lines`). -/
structure ConfigObj where
  envs_ref : Nat
  hosts_cache : List (String × Nat)
  host_files : List (String × Cell)

/-- `Config.environments` (property): `return self._environments.copy()`. -/
def ConfigObj.environments (c : ConfigObj) (h : Heap) : Heap × Nat :=
  Heap.alloc h (Heap.read h c.envs_ref)

/-- `Config.get_hosts`: return a copy of the cached list when the environment
is cached; return a fresh `[]` when its host file does not exist; otherwise
read the file into a new list, cache that list, and return a copy of it. -/
def ConfigObj.get_hosts (c : ConfigObj) (h : Heap) (environment : String) :
    Heap × ConfigObj × Nat :=
  match lookupStr environment c.hosts_cache with
  | some r =>
    let (h1, r2) := Heap.alloc h (Heap.read h r)
    (h1, c, r2)
  | none =>
    match lookupStr environment c.host_files with
    | none =>
      let (h1, r2) := Heap.alloc h []
      (h1, c, r2)
    | some hosts =>
      let (h1, r1) := Heap.alloc h hosts
      let (h2, r2) := Heap.alloc h1 hosts
      (h2, { c with hosts_cache := (environment, r1) :: c.hosts_cache }, r2)

/-- Well-formedness of a `Config` object over the store: its references are
live, and every cached list object holds exactly the content of the
corresponding host file. -/
def ConfigObj.WF (c : ConfigObj) (h : Heap) : Prop :=
  c.envs_ref < h.length ∧
  ∀ p ∈ c.hosts_cache,
    p.2 < h.length ∧ lookupStr p.1 c.host_files = some (Heap.read h p.2)

/-- The list value a caller receives from `get_hosts`. -/
def hostsVal (c : ConfigObj) (h : Heap) (environment : String) : Cell :=
  Heap.read (c.get_hosts h environment).1 (c.get_hosts h environment).2.2

/-- The list value a caller receives from `environments`. -/
def envsVal (c : ConfigObj) (h : Heap) : Cell :=
  Heap.read (c.environments h).1 (c.environments h).2

theorem Heap.read_append_lt (h h2 : Heap) (r : Nat) (hr : r < h.length) :
    Heap.read (h ++ h2) r = Heap.read h r := by
  induction h generalizing r with
  | nil => exact absurd hr (by simp)
  | cons c t ih =>
    cases r with
    | zero => rfl
    | succ n => exact ih n (by simpa using hr)

theorem Heap.read_append_self (h : Heap) (v : Cell) :
    Heap.read (h ++ [v]) h.length = v := by
  induction h with
  | nil => rfl
  | cons c t ih => simpa using ih

theorem Heap.read_write_ne (h : Heap) (r r2 : Nat) (v : Cell) (hne : r ≠ r2) :
    Heap.read (Heap.write h r v) r2 = Heap.read h r2 := by
  induction h generalizing r r2 with
  | nil => rfl
  | cons c t ih =>
    cases r with
    | zero =>
      cases r2 with
      | zero => exact absurd rfl hne
      | succ m => rfl
    | succ n =>
      cases r2 with
      | zero => rfl
      | succ m => exact ih n m (fun hh => hne (by rw [hh]))

theorem Heap.write_length (h : Heap) (r : Nat) (v : Cell) :
    (Heap.write h r v).length = h.length := by
  induction h generalizing r with
  | nil => rfl
  | cons c t ih =>
    cases r with
    | zero => rfl
    | succ n => simp [Heap.write, ih n]

theorem lookupStr_mem {β : Type} (k : String) (l : List (String × β)) (v : β)
    (hl : lookupStr k l = some v) : (k, v) ∈ l := by
  induction l with
  | nil => simp [lookupStr] at hl
  | cons p rest ih =>
    obtain ⟨k0, v0⟩ := p
    by_cases hk : k0 = k
    · subst hk
      simp [lookupStr] at hl
      subst hl
      exact List.mem_cons_self _ _
    · simp only [lookupStr, if_neg hk] at hl
      exact List.mem_cons_of_mem _ (ih hl)

/-- Under well-formedness, the value returned by `get_hosts` is the host
file's content, with `[]` for an unknown environment. -/
theorem hostsVal_eq (c : ConfigObj) (h : Heap) (environment : String)
    (hwf : c.WF h) :
    hostsVal c h environment = (lookupStr environment c.host_files).getD [] := by
  unfold hostsVal ConfigObj.get_hosts
  cases hc : lookupStr environment c.hosts_cache with
  | some r =>
    simp only [Heap.alloc]
    rw [Heap.read_append_self]
    have hfile := (hwf.2 (environment, r) (lookupStr_mem _ _ _ hc)).2
    rw [hfile]
    rfl
  | none =>
    cases hf : lookupStr environment c.host_files with
    | none =>
      simp only [Heap.alloc]
      rw [Heap.read_append_self]
      rfl
    | some hosts =>
      simp only [Heap.alloc]
      rw [Heap.read_append_self]
      rfl

theorem envsVal_eq (c : ConfigObj) (h : Heap) :
    envsVal c h = Heap.read h c.envs_ref := by
  unfold envsVal ConfigObj.environments Heap.alloc
  exact Heap.read_append_self h _

/-- Writing through a reference at or past the end of the original store
leaves the config well-formed on the extended store and leaves the
environments list object unchanged. -/
theorem reads_preserved (c : ConfigObj) (h htail : Heap) (k : Nat) (v : Cell)
    (hwf : c.WF h) (hk : h.length ≤ k) :
    c.WF (Heap.write (h ++ htail) k v) ∧
    Heap.read (Heap.write (h ++ htail) k v) c.envs_ref = Heap.read h c.envs_ref := by
  obtain ⟨henv, hcache⟩ := hwf
  have hlen : (Heap.write (h ++ htail) k v).length = h.length + htail.length := by
    rw [Heap.write_length]
    simp
  refine ⟨⟨by omega, ?_⟩, ?_⟩
  · intro p hp
    obtain ⟨hplt, hpfile⟩ := hcache p hp
    refine ⟨by omega, ?_⟩
    rw [Heap.read_write_ne _ _ _ _ (by omega), Heap.read_append_lt _ _ _ hplt]
    exact hpfile
  · rw [Heap.read_write_ne _ _ _ _ (by omega), Heap.read_append_lt _ _ _ henv]

/-- One `get_hosts` call followed by a caller-side mutation of the returned
list object: the files and the environments reference are untouched, the
config stays well-formed, and the environments list object keeps its value. -/
theorem get_hosts_step (c : ConfigObj) (h : Heap) (e : String) (v : Cell)
    (hwf : c.WF h) :
    ((c.get_hosts h e).2.1).host_files = c.host_files ∧
    ((c.get_hosts h e).2.1).envs_ref = c.envs_ref ∧
    ((c.get_hosts h e).2.1).WF
      (Heap.write (c.get_hosts h e).1 (c.get_hosts h e).2.2 v) ∧
    Heap.read (Heap.write (c.get_hosts h e).1 (c.get_hosts h e).2.2 v) c.envs_ref =
      Heap.read h c.envs_ref := by
  unfold ConfigObj.get_hosts
  cases hc : lookupStr e c.hosts_cache with
  | some r =>
    simp only [Heap.alloc]
    exact ⟨by trivial, by trivial,
      (reads_preserved c h [Heap.read h r] h.length v hwf (le_refl _)).1,
      (reads_preserved c h [Heap.read h r] h.length v hwf (le_refl _)).2⟩
  | none =>
    cases hf : lookupStr e c.host_files with
    | none =>
      simp only [Heap.alloc]
      exact ⟨by trivial, by trivial,
        (reads_preserved c h [[]] h.length v hwf (le_refl _)).1,
        (reads_preserved c h [[]] h.length v hwf (le_refl _)).2⟩
    | some hosts =>
      simp only [Heap.alloc]
      have hwf1 : ConfigObj.WF
          { c with hosts_cache := (e, h.length) :: c.hosts_cache } (h ++ [hosts]) := by
        refine ⟨by have h1 := hwf.1; simp; omega, ?_⟩
        intro p hp
        rcases List.mem_cons.mp hp with hp1 | hp2
        · subst hp1
          refine ⟨by simp, ?_⟩
          rw [Heap.read_append_self]
          exact hf
        · obtain ⟨hplt, hpfile⟩ := hwf.2 p hp2
          refine ⟨by simp; omega, ?_⟩
          rw [Heap.read_append_lt _ _ _ hplt]
          exact hpfile
      have hres := reads_preserved
        { c with hosts_cache := (e, h.length) :: c.hosts_cache }
        (h ++ [hosts]) [hosts] (h ++ [hosts]).length v hwf1 (le_refl _)
      refine ⟨by trivial, by trivial, hres.1, ?_⟩
      rw [hres.2]
      exact Heap.read_append_lt _ _ _ hwf.1

/-- C9: for an environment unknown to the catalog (no `<environment>.hosts`
file), `get_hosts` on a well-formed config returns the empty list and leaves
the config unchanged — it never fails (it is a total Lean function with no
error channel). -/
theorem C9_unknown_env (c : ConfigObj) (h : Heap) (environment : String)
    (hwf : c.WF h) (hunk : lookupStr environment c.host_files = none) :
    hostsVal c h environment = [] ∧
    (c.get_hosts h environment).2.1 = c := by
  have hcn : lookupStr environment c.hosts_cache = none := by
    cases hc : lookupStr environment c.hosts_cache with
    | none => rfl
    | some r =>
      have hfile := (hwf.2 (environment, r) (lookupStr_mem _ _ _ hc)).2
      rw [hunk] at hfile
      cases hfile
  constructor
  · rw [hostsVal_eq c h environment hwf, hunk]
    rfl
  · simp only [ConfigObj.get_hosts, hcn, hunk, Heap.alloc]

/-- The config object and store used by the C9/C10 witnesses: one environment
"prod" with host file content ["db1"], nothing cached yet, the environments
list object in cell 0. -/
def cfgObjExample : ConfigObj :=
  { envs_ref := 0
    hosts_cache := []
    host_files := [("prod", ["db1"])] }

def heapExample : Heap := [["prod"]]

theorem cfgObjExample_WF : cfgObjExample.WF heapExample :=
  ⟨by decide, fun p hp => absurd hp (List.not_mem_nil p)⟩

/-- Witness for C9: the unknown environment "dev" yields the empty host list
and an unchanged config. -/
theorem C9_unknown_env_witness :
    cfgObjExample.WF heapExample ∧
    lookupStr "dev" cfgObjExample.host_files = none ∧
    (hostsVal cfgObjExample heapExample "dev" = [] ∧
     (cfgObjExample.get_hosts heapExample "dev").2.1 = cfgObjExample) :=
  ⟨cfgObjExample_WF, by decide,
    C9_unknown_env cfgObjExample heapExample "dev" cfgObjExample_WF (by decide)⟩

/-- C10: `environments` and `get_hosts` hand the caller freshly allocated
copies of the internal list objects, so writing any value through the
returned reference changes neither the value a subsequent `environments`
call returns nor the value any subsequent `get_hosts` call returns. -/
theorem C10_read_ops_copy (c : ConfigObj) (h : Heap) (hwf : c.WF h) :
    (∀ (v : Cell) (e : String),
      hostsVal c (Heap.write (c.environments h).1 (c.environments h).2 v) e =
        hostsVal c h e ∧
      envsVal c (Heap.write (c.environments h).1 (c.environments h).2 v) =
        envsVal c h) ∧
    (∀ (e1 : String) (v : Cell) (e2 : String),
      hostsVal (c.get_hosts h e1).2.1
          (Heap.write (c.get_hosts h e1).1 (c.get_hosts h e1).2.2 v) e2 =
        hostsVal c h e2 ∧
      envsVal (c.get_hosts h e1).2.1
          (Heap.write (c.get_hosts h e1).1 (c.get_hosts h e1).2.2 v) =
        envsVal c h) := by
  constructor
  · intro v e
    have hres := reads_preserved c h [Heap.read h c.envs_ref] h.length v hwf (le_refl _)
    have henvh : (c.environments h).1 = h ++ [Heap.read h c.envs_ref] := rfl
    have henvr : (c.environments h).2 = h.length := rfl
    rw [henvh, henvr]
    constructor
    · rw [hostsVal_eq c _ e hres.1, hostsVal_eq c h e hwf]
    · rw [envsVal_eq, envsVal_eq, hres.2]
  · intro e1 v e2
    obtain ⟨hfiles, henv, hwf2, hread⟩ := get_hosts_step c h e1 v hwf
    constructor
    · rw [hostsVal_eq _ _ e2 hwf2, hostsVal_eq c h e2 hwf, hfiles]
    · rw [envsVal_eq, envsVal_eq, henv, hread]

/-- Witness for C10 at the concrete config object and store. -/
theorem C10_read_ops_copy_witness :
    cfgObjExample.WF heapExample ∧
    ((∀ (v : Cell) (e : String),
      hostsVal cfgObjExample
          (Heap.write (cfgObjExample.environments heapExample).1
            (cfgObjExample.environments heapExample).2 v) e =
        hostsVal cfgObjExample heapExample e ∧
      envsVal cfgObjExample
          (Heap.write (cfgObjExample.environments heapExample).1
            (cfgObjExample.environments heapExample).2 v) =
        envsVal cfgObjExample heapExample) ∧
    (∀ (e1 : String) (v : Cell) (e2 : String),
      hostsVal (cfgObjExample.get_hosts heapExample e1).2.1
          (Heap.write (cfgObjExample.get_hosts heapExample e1).1
            (cfgObjExample.get_hosts heapExample e1).2.2 v) e2 =
        hostsVal cfgObjExample heapExample e2 ∧
      envsVal (cfgObjExample.get_hosts heapExample e1).2.1
          (Heap.write (cfgObjExample.get_hosts heapExample e1).1
            (cfgObjExample.get_hosts heapExample e1).2.2 v) =
        envsVal cfgObjExample heapExample)) :=
  ⟨cfgObjExample_WF, C10_read_ops_copy cfgObjExample heapExample cfgObjExample_WF⟩
